import Mathlib

/-
  Verification of the grid-trading decision core: the grid level generator
  (src/models/schemas.py), the grid engine state machine (src/bot/grid.py)
  and the risk gate (src/bot/risk.py), shallowly embedded over exact real
  and rational arithmetic.  Gateway calls (order placement, price fetch)
  are modelled as Except-valued inputs: ok is the value the gateway
  returned, error is a raised exception that the engine must absorb.
-/

namespace CryptoBot

/-- Order side, from src/models/schemas.py OrderSide. -/
inductive OrderSide where
  | BUY
  | SELL
  deriving DecidableEq, Repr

/-- Order status, from src/models/schemas.py OrderStatus. -/
inductive OrderStatus where
  | NEW
  | PARTIALLY_FILLED
  | FILLED
  | CANCELED
  | REJECTED
  | EXPIRED
  deriving DecidableEq, Repr

/-- Grid configuration, from src/models/schemas.py GridConfig.  Prices are
floats in the source, embedded as reals. -/
structure GridConfig where
  trading_pair : String := "BTCUSDT"
  upper_price : ℝ
  lower_price : ℝ
  grid_count : ℕ
  amount_per_grid : ℝ
  grid_type : String := "arithmetic"

/-- A valid configuration in the sense of claim C1: positive range with
upper above lower, and the pydantic field bounds 2 <= grid_count <= 100,
amount_per_grid > 0. -/
def GridConfig.Valid (c : GridConfig) : Prop :=
  0 < c.lower_price ∧ c.lower_price < c.upper_price ∧
    2 ≤ c.grid_count ∧ c.grid_count ≤ 100 ∧ 0 < c.amount_per_grid

/-- GridConfig.get_grid_levels from src/models/schemas.py: geometric mode
multiplies lower_price by (upper/lower)^(1/count) raised to i, any other
grid_type takes the arithmetic branch lower + spacing * i with spacing
(upper - lower) / count.  The source loops i over range(grid_count + 1)
appending one price per index. -/
noncomputable def GridConfig.get_grid_levels (c : GridConfig) : List ℝ :=
  if c.grid_type = "geometric" then
    (List.range (c.grid_count + 1)).map fun i : ℕ =>
      c.lower_price * ((c.upper_price / c.lower_price) ^ ((1 : ℝ) / (c.grid_count : ℝ))) ^ i
  else
    (List.range (c.grid_count + 1)).map fun i : ℕ =>
      c.lower_price + ((c.upper_price - c.lower_price) / (c.grid_count : ℝ)) * (i : ℝ)

theorem get_grid_levels_length (c : GridConfig) :
    c.get_grid_levels.length = c.grid_count + 1 := by
  unfold GridConfig.get_grid_levels
  split <;> rw [List.length_map, List.length_range]

theorem get_grid_levels_get?_arith (c : GridConfig) (hty : ¬ c.grid_type = "geometric")
    {i : ℕ} (hi : i ≤ c.grid_count) :
    c.get_grid_levels.get? i =
      some (c.lower_price + (c.upper_price - c.lower_price) / (c.grid_count : ℝ) * (i : ℝ)) := by
  unfold GridConfig.get_grid_levels
  rw [if_neg hty, List.get?_map, List.get?_range (by omega)]
  rfl

theorem get_grid_levels_get?_geom (c : GridConfig) (hty : c.grid_type = "geometric")
    {i : ℕ} (hi : i ≤ c.grid_count) :
    c.get_grid_levels.get? i =
      some (c.lower_price *
        ((c.upper_price / c.lower_price) ^ ((1 : ℝ) / (c.grid_count : ℝ))) ^ i) := by
  unfold GridConfig.get_grid_levels
  rw [if_pos hty, List.get?_map, List.get?_range (by omega)]
  rfl

/-- Claim C1: for every valid GridConfig, get_grid_levels returns
grid_count + 1 prices whose first entry is lower_price and whose last
entry (index grid_count) is upper_price; in arithmetic mode the i-th
price is lower + i * (upper - lower) / count, and consequently every
pair of consecutive prices differs by the common spacing
(upper - lower) / count. -/
theorem get_grid_levels_spec (c : GridConfig) (h : c.Valid) :
    c.get_grid_levels.length = c.grid_count + 1 ∧
    c.get_grid_levels.get? 0 = some c.lower_price ∧
    c.get_grid_levels.get? c.grid_count = some c.upper_price ∧
    (c.grid_type = "arithmetic" →
      (∀ i : ℕ, i ≤ c.grid_count →
        c.get_grid_levels.get? i =
          some (c.lower_price + (i : ℝ) * (c.upper_price - c.lower_price) / (c.grid_count : ℝ))) ∧
      (∀ i : ℕ, i < c.grid_count →
        ∃ a b : ℝ, c.get_grid_levels.get? i = some a ∧
          c.get_grid_levels.get? (i + 1) = some b ∧
          b - a = (c.upper_price - c.lower_price) / (c.grid_count : ℝ))) := by
  obtain ⟨hl, hlu, hn2, _, _⟩ := h
  have hu : 0 < c.upper_price := lt_trans hl hlu
  have hn0 : (c.grid_count : ℝ) ≠ 0 := Nat.cast_ne_zero.mpr (by omega)
  refine ⟨get_grid_levels_length c, ?_, ?_, ?_⟩
  · by_cases hty : c.grid_type = "geometric"
    · rw [get_grid_levels_get?_geom c hty (Nat.zero_le _)]
      simp
    · rw [get_grid_levels_get?_arith c hty (Nat.zero_le _)]
      simp
  · by_cases hty : c.grid_type = "geometric"
    · rw [get_grid_levels_get?_geom c hty le_rfl]
      have hx : (0 : ℝ) ≤ c.upper_price / c.lower_price := le_of_lt (div_pos hu hl)
      rw [← Real.rpow_natCast ((c.upper_price / c.lower_price) ^
            ((1 : ℝ) / (c.grid_count : ℝ))) c.grid_count,
          ← Real.rpow_mul hx, one_div, inv_mul_cancel₀ hn0, Real.rpow_one]
      rw [mul_div_assoc']
      rw [mul_comm, mul_div_assoc, div_self hl.ne', mul_one]
    · rw [get_grid_levels_get?_arith c hty le_rfl]
      congr 1
      field_simp
  · intro hty
    have hty' : ¬ c.grid_type = "geometric" := by rw [hty]; decide
    constructor
    · intro i hi
      rw [get_grid_levels_get?_arith c hty' hi]
      congr 1
      ring
    · intro i hi
      have ha := get_grid_levels_get?_arith c hty' (le_of_lt hi)
      have hb := get_grid_levels_get?_arith c hty' (show i + 1 ≤ c.grid_count by omega)
      exact ⟨_, _, ha, hb, by push_cast; ring⟩

/-- Witness for claim C1: the configuration of the repository's own test
(lower 40000, upper 45000, 10 arithmetic grids) is valid and its level
list starts at the lower bound. -/
theorem get_grid_levels_spec_witness :
    (GridConfig.mk "BTCUSDT" 45000 40000 10 (1 / 1000) "arithmetic").Valid ∧
    (GridConfig.mk "BTCUSDT" 45000 40000 10 (1 / 1000) "arithmetic").get_grid_levels.get? 0 =
      some (40000 : ℝ) := by
  have hv : (GridConfig.mk "BTCUSDT" 45000 40000 10 (1 / 1000) "arithmetic").Valid := by
    refine ⟨by norm_num, by norm_num, by norm_num, by norm_num, by norm_num⟩
  exact ⟨hv, (get_grid_levels_spec _ hv).2.1⟩

/-- Risk metrics, from src/bot/risk.py RiskMetrics.  Monetary values are
floats in the source, embedded as rationals; consecutive_losses is a
non-negative integer counter. -/
structure RiskMetrics where
  total_exposure : ℚ := 0
  max_exposure : ℚ := 0
  daily_pnl : ℚ := 0
  daily_loss_limit : ℚ := 0
  drawdown : ℚ := 0
  max_drawdown : ℚ := 0
  consecutive_losses : ℕ := 0
  stop_loss_triggered : Bool := false
  take_profit_triggered : Bool := false
  deriving DecidableEq, Repr

/-- Risk limit configuration, from src/bot/risk.py RiskLimits, with the
source's default values. -/
structure RiskLimits where
  max_position_size : ℚ := 1 / 10
  max_open_orders : ℕ := 50
  daily_loss_limit : ℚ := 100
  stop_loss_percent : ℚ := 5
  take_profit_percent : ℚ := 10
  max_consecutive_losses : ℕ := 5
  max_drawdown_percent : ℚ := 10
  deriving DecidableEq, Repr

/-- A UTC timestamp reduced to what the risk manager observes of
datetime.utcnow(): the calendar day (as an ordinal) and the time within
the day. -/
structure UtcTime where
  day : ℤ
  ms_of_day : ℕ := 0
  deriving DecidableEq, Repr

/-- The RiskManager object state, from src/bot/risk.py: static limits,
dynamic metrics, the per-trade P and L entries of the current day, peak
and current balance, and the time of the last daily reset. -/
structure RiskManager where
  limits : RiskLimits := {}
  metrics : RiskMetrics := {}
  daily_trades : List ℚ := []
  peak_balance : ℚ := 0
  current_balance : ℚ := 0
  last_reset : UtcTime
  deriving DecidableEq, Repr

/-- RiskManager.update_balance: track balance, raise the peak when
exceeded, recompute drawdown as a percentage of peak and raise the
recorded maximum drawdown when exceeded. -/
def RiskManager.update_balance (rm : RiskManager) (balance : ℚ) : RiskManager :=
  let peak := if rm.peak_balance < balance then balance else rm.peak_balance
  let rm1 := { rm with current_balance := balance, peak_balance := peak }
  if 0 < peak then
    let dd := (peak - balance) / peak * 100
    { rm1 with
      metrics := { rm1.metrics with
        drawdown := dd,
        max_drawdown :=
          if rm1.metrics.max_drawdown < dd then dd else rm1.metrics.max_drawdown } }
  else rm1

/-- RiskManager.record_trade_pnl: append the trade's P and L to the
day's list, recompute daily P and L as its sum, and step the
consecutive-loss counter (increment on a loss, reset on a non-loss). -/
def RiskManager.record_trade_pnl (rm : RiskManager) (pnl : ℚ) : RiskManager :=
  let trades := rm.daily_trades ++ [pnl]
  { rm with
    daily_trades := trades,
    metrics := { rm.metrics with
      daily_pnl := trades.sum,
      consecutive_losses :=
        if pnl < 0 then rm.metrics.consecutive_losses + 1 else 0 } }

/-- RiskManager.can_place_order from src/bot/risk.py lines 95 to 129: the
five checks in source order, each returning its own reason, with OK as
the fallthrough. -/
def RiskManager.can_place_order (rm : RiskManager) (side : OrderSide)
    (quantity price : ℚ) (current_open_orders : ℕ) : Bool × String :=
  if rm.metrics.daily_pnl ≤ -rm.limits.daily_loss_limit then
    (false, "Daily loss limit reached")
  else if current_open_orders ≥ rm.limits.max_open_orders then
    (false, "Max open orders (" ++ toString rm.limits.max_open_orders ++ ") reached")
  else if quantity * price > rm.limits.max_position_size * rm.current_balance then
    (false, "Order exceeds max position size")
  else if rm.metrics.consecutive_losses ≥ rm.limits.max_consecutive_losses then
    (false, "Max consecutive losses (" ++ toString rm.limits.max_consecutive_losses ++ ") reached")
  else if rm.metrics.drawdown ≥ rm.limits.max_drawdown_percent then
    (false, "Max drawdown (" ++ toString rm.limits.max_drawdown_percent ++ "%) reached")
  else
    (true, "OK")

/-- RiskManager.reset_daily_metrics: clear the day's trade list, zero
daily P and L, clear both sticky trigger flags, stamp the reset time. -/
def RiskManager.reset_daily_metrics (rm : RiskManager) (now : UtcTime) : RiskManager :=
  { rm with
    daily_trades := [],
    metrics := { rm.metrics with
      daily_pnl := 0,
      stop_loss_triggered := false,
      take_profit_triggered := false },
    last_reset := now }

/-- RiskManager.should_reset_daily from src/bot/risk.py lines 190 to 193:
the source compares calendar dates with a strict greater-than,
now.date() > last_reset.date(). -/
def RiskManager.should_reset_daily (rm : RiskManager) (now : UtcTime) : Bool :=
  decide (rm.last_reset.day < now.day)

/-- The first check of claim C3: accumulated daily P and L has reached
the configured daily loss limit. -/
def RiskManager.daily_loss_reached (rm : RiskManager) : Prop :=
  rm.metrics.daily_pnl ≤ -rm.limits.daily_loss_limit

/-- The second check of claim C3: the open-order count has reached the
configured maximum. -/
def RiskManager.max_orders_reached (rm : RiskManager) (current_open_orders : ℕ) : Prop :=
  current_open_orders ≥ rm.limits.max_open_orders

/-- The third check of claim C3: the order notional quantity * price
exceeds max_position_size times the current balance. -/
def RiskManager.notional_too_large (rm : RiskManager) (quantity price : ℚ) : Prop :=
  quantity * price > rm.limits.max_position_size * rm.current_balance

/-- The fourth check of claim C3: the consecutive-loss streak has
reached its ceiling. -/
def RiskManager.consecutive_losses_reached (rm : RiskManager) : Prop :=
  rm.metrics.consecutive_losses ≥ rm.limits.max_consecutive_losses

/-- The fifth check of claim C3: drawdown has reached its ceiling. -/
def RiskManager.drawdown_reached (rm : RiskManager) : Prop :=
  rm.metrics.drawdown ≥ rm.limits.max_drawdown_percent

/-- Claim C3: can_place_order evaluates its checks in the fixed priority
order daily loss, open-order count, notional, consecutive losses,
drawdown; it returns the first failing check's reason alone, OK when all
pass, and in particular rejects with a reason starting with the words
Daily loss limit whenever accumulated daily P and L has reached minus
the daily loss limit. -/
theorem can_place_order_priority (rm : RiskManager) (side : OrderSide)
    (quantity price : ℚ) (n : ℕ) :
    (rm.daily_loss_reached →
      rm.can_place_order side quantity price n = (false, "Daily loss limit reached")) ∧
    (¬ rm.daily_loss_reached → rm.max_orders_reached n →
      rm.can_place_order side quantity price n =
        (false, "Max open orders (" ++ toString rm.limits.max_open_orders ++ ") reached")) ∧
    (¬ rm.daily_loss_reached → ¬ rm.max_orders_reached n →
      rm.notional_too_large quantity price →
      rm.can_place_order side quantity price n = (false, "Order exceeds max position size")) ∧
    (¬ rm.daily_loss_reached → ¬ rm.max_orders_reached n →
      ¬ rm.notional_too_large quantity price → rm.consecutive_losses_reached →
      rm.can_place_order side quantity price n =
        (false, "Max consecutive losses (" ++ toString rm.limits.max_consecutive_losses ++ ") reached")) ∧
    (¬ rm.daily_loss_reached → ¬ rm.max_orders_reached n →
      ¬ rm.notional_too_large quantity price → ¬ rm.consecutive_losses_reached →
      rm.drawdown_reached →
      rm.can_place_order side quantity price n =
        (false, "Max drawdown (" ++ toString rm.limits.max_drawdown_percent ++ "%) reached")) ∧
    (¬ rm.daily_loss_reached → ¬ rm.max_orders_reached n →
      ¬ rm.notional_too_large quantity price → ¬ rm.consecutive_losses_reached →
      ¬ rm.drawdown_reached →
      rm.can_place_order side quantity price n = (true, "OK")) ∧
    (rm.daily_loss_reached →
      (rm.can_place_order side quantity price n).1 = false ∧
      ∃ t : String, (rm.can_place_order side quantity price n).2 = "Daily loss limit" ++ t) := by
  unfold RiskManager.can_place_order RiskManager.daily_loss_reached
    RiskManager.max_orders_reached RiskManager.notional_too_large
    RiskManager.consecutive_losses_reached RiskManager.drawdown_reached
  refine ⟨?_, ?_, ?_, ?_, ?_, ?_, ?_⟩
  · intro h1; rw [if_pos h1]
  · intro h1 h2; rw [if_neg h1, if_pos h2]
  · intro h1 h2 h3; rw [if_neg h1, if_neg h2, if_pos h3]
  · intro h1 h2 h3 h4; rw [if_neg h1, if_neg h2, if_neg h3, if_pos h4]
  · intro h1 h2 h3 h4 h5; rw [if_neg h1, if_neg h2, if_neg h3, if_neg h4, if_pos h5]
  · intro h1 h2 h3 h4 h5; rw [if_neg h1, if_neg h2, if_neg h3, if_neg h4, if_neg h5]
  · intro h1; rw [if_pos h1]; exact ⟨rfl, " reached", rfl⟩

/-- Witness for claim C3: a risk manager whose daily P and L sits at
minus 100 against a limit of 100 (the spec's own example, two trades of
minus 50) rejects the next order with the Daily loss limit reason. -/
theorem can_place_order_priority_witness :
    ((({ last_reset := ⟨0, 0⟩ } : RiskManager).record_trade_pnl (-50)).record_trade_pnl
        (-50)).can_place_order OrderSide.BUY (1 / 1000) 42000 5 =
      (false, "Daily loss limit reached") := by
  exact (can_place_order_priority _ OrderSide.BUY (1 / 1000) 42000 5).1
    (by norm_num [RiskManager.daily_loss_reached, RiskManager.record_trade_pnl])

/-- Claim C10: can_place_order never inspects the side argument, so for
every risk-manager state and all numeric arguments the BUY and SELL
decisions coincide. -/
theorem can_place_order_side_independent (rm : RiskManager)
    (quantity price : ℚ) (n : ℕ) :
    rm.can_place_order OrderSide.BUY quantity price n =
      rm.can_place_order OrderSide.SELL quantity price n := rfl

/-- Counterexample to claim C9 as stated: with the last reset stamped on
day 1 and the clock reading day 0, the two calendar dates differ yet
should_reset_daily returns false, because the source compares dates with
a strict greater-than rather than inequality. -/
theorem should_reset_daily_counterexample :
    ({ last_reset := ⟨1, 0⟩ } : RiskManager).should_reset_daily ⟨0, 0⟩ = false ∧
      (UtcTime.mk 0 0).day ≠ ({ last_reset := ⟨1, 0⟩ } : RiskManager).last_reset.day := by
  exact ⟨rfl, by decide⟩

/-- Claim C9 as amended: should_reset_daily is true exactly when the
calendar date of the current time is strictly later than the date of the
last daily reset; when time has not moved backwards across the reset
date this coincides with the dates differing. -/
theorem should_reset_daily_amended (rm : RiskManager) (now : UtcTime) :
    (rm.should_reset_daily now = true ↔ rm.last_reset.day < now.day) ∧
    (rm.last_reset.day ≤ now.day →
      (rm.should_reset_daily now = true ↔ now.day ≠ rm.last_reset.day)) := by
  unfold RiskManager.should_reset_daily
  constructor
  · exact decide_eq_true_iff
  · intro hle
    rw [decide_eq_true_iff]
    omega

/-- One grid level, from src/models/schemas.py GridLevel, with the
source's defaults: no order on either side. -/
structure GridLevel where
  level : ℕ
  price : ℝ
  has_buy_order : Bool := false
  has_sell_order : Bool := false
  buy_order_id : Option String := none
  sell_order_id : Option String := none

/-- An order, from src/models/schemas.py Order.  The grid_level field is
a non-negative index wherever the engine writes it (it always stores
GridLevel.level), so it is embedded as an optional natural number. -/
structure Order where
  order_id : String
  client_order_id : Option String := none
  trading_pair : String
  side : OrderSide
  order_type : String := "LIMIT"
  price : ℝ
  quantity : ℝ
  filled_quantity : ℝ := 0
  status : OrderStatus := OrderStatus.NEW
  grid_level : Option ℕ := none

/-- An immutable trade record, from src/models/schemas.py Trade. -/
structure Trade where
  trade_id : String
  order_id : String
  trading_pair : String
  side : OrderSide
  price : ℝ
  quantity : ℝ
  commission : ℝ := 0

/-- The mutable state of a GridBot instance, from src/bot/grid.py
GridBot.__init__, with the constructor's initial values as defaults.
The open-order and simulated-order dictionaries are insertion-ordered
association lists, as Python dicts are.  The wall-clock start time and
the registered callback lists are pure bookkeeping for status reporting
and are not part of the decision state. -/
structure BotState where
  config : GridConfig
  simulation_mode : Bool := true
  running : Bool := false
  current_price : Option ℝ := none
  grid_levels : List GridLevel := []
  open_orders : List (String × Order) := []
  trades : List Trade := []
  total_profit : ℝ := 0
  daily_profit : ℝ := 0
  last_error : Option String := none
  sim_orders : List (String × Order) := []

/-- A freshly constructed GridBot. -/
def initState (config : GridConfig) (sim : Bool) : BotState :=
  { config := config, simulation_mode := sim }

/-- Python dict membership test on an association list. -/
def dictMem (d : List (String × Order)) (k : String) : Bool :=
  d.any fun p => p.1 == k

/-- Python dict lookup on an association list. -/
def dictFind? (d : List (String × Order)) (k : String) : Option Order :=
  (d.find? fun p => p.1 == k).map Prod.snd

/-- Python dict assignment d[k] = v: replace the value in place when the
key exists, append a new entry otherwise. -/
def dictInsert (d : List (String × Order)) (k : String) (v : Order) :
    List (String × Order) :=
  if dictMem d k then d.map fun p => if p.1 == k then (k, v) else p
  else d ++ [(k, v)]

/-- Python del d[k] (on a dict with unique keys): drop the entry. -/
def dictErase (d : List (String × Order)) (k : String) : List (String × Order) :=
  d.filter fun p => !(p.1 == k)

/-- GridBot._initialize_grid_levels: one GridLevel per generated price,
indexed by position, with no orders. -/
noncomputable def initialize_grid_levels (c : GridConfig) : List GridLevel :=
  c.get_grid_levels.enum.map fun p => { level := p.1, price := p.2 }

/-- GridBot._place_buy_order from src/bot/grid.py lines 211 to 252,
acting on the level at index i (the caller always passes an element of
the grid-level list, so the index is in range).  The res argument is the
outcome of the gateway or simulator call: ok is the created order, error
a raised exception, which the source catches, logs and turns into a
None return with no state change.  On success the level's buy flag and
order id are set and the order enters the open dictionary (and, in
simulation mode, the simulated-order dictionary). -/
def place_buy_order (s : BotState) (i : ℕ) (res : Except String Order) :
    BotState × Option Order :=
  match s.grid_levels.get? i with
  | none => (s, none)
  | some lvl =>
    if lvl.has_buy_order then (s, none)
    else
      match res with
      | Except.error _ => (s, none)
      | Except.ok order =>
        ({ s with
            grid_levels := s.grid_levels.set i
              { lvl with has_buy_order := true, buy_order_id := some order.order_id },
            open_orders := dictInsert s.open_orders order.order_id order,
            sim_orders :=
              if s.simulation_mode then dictInsert s.sim_orders order.order_id order
              else s.sim_orders },
          some order)

/-- GridBot._place_sell_order from src/bot/grid.py lines 254 to 295,
mirror image of place_buy_order. -/
def place_sell_order (s : BotState) (i : ℕ) (res : Except String Order) :
    BotState × Option Order :=
  match s.grid_levels.get? i with
  | none => (s, none)
  | some lvl =>
    if lvl.has_sell_order then (s, none)
    else
      match res with
      | Except.error _ => (s, none)
      | Except.ok order =>
        ({ s with
            grid_levels := s.grid_levels.set i
              { lvl with has_sell_order := true, sell_order_id := some order.order_id },
            open_orders := dictInsert s.open_orders order.order_id order,
            sim_orders :=
              if s.simulation_mode then dictInsert s.sim_orders order.order_id order
              else s.sim_orders },
          some order)

/-- GridBot._handle_filled_order from src/bot/grid.py lines 317 to 375.
The two Except arguments are the gateway outcomes for the potential
counter-orders (sell one level up after a buy fill, buy one level down
after a sell fill).  none models the source raising: a KeyError when the
filled order's id is not an open-order key, or an IndexError when its
grid_level is out of range.  The source's check grid_level - 1 >= 0 on a
Python int that is always non-negative is the check 1 <= i here. -/
noncomputable def handle_filled_order (s : BotState) (order : Order)
    (sellRes buyRes : Except String Order) : Option BotState :=
  if dictMem s.open_orders order.order_id = false then none
  else
    let s0 := { s with open_orders := dictErase s.open_orders order.order_id }
    let trade : Trade :=
      { trade_id := "trade_" ++ toString s0.trades.length,
        order_id := order.order_id,
        trading_pair := order.trading_pair,
        side := order.side,
        price := order.price,
        quantity := order.quantity }
    let s1 := { s0 with trades := s0.trades ++ [trade] }
    match order.grid_level with
    | none => some s1
    | some i =>
      match s1.grid_levels.get? i with
      | none => none
      | some lvl =>
        match order.side with
        | OrderSide.BUY =>
          let s2 := { s1 with
            grid_levels := s1.grid_levels.set i
              { lvl with has_buy_order := false, buy_order_id := none } }
          if i + 1 < s2.grid_levels.length then
            some (place_sell_order s2 (i + 1) sellRes).1
          else some s2
        | OrderSide.SELL =>
          let s2 := { s1 with
            grid_levels := s1.grid_levels.set i
              { lvl with has_sell_order := false, sell_order_id := none } }
          let gs := s2.config.get_grid_levels
          let s3 :=
            if 1 < gs.length then
              let spacing := (gs.get? 1).getD 0 - (gs.get? 0).getD 0
              { s2 with
                total_profit := s2.total_profit + spacing * order.quantity,
                daily_profit := s2.daily_profit + spacing * order.quantity }
            else s2
          if 1 ≤ i then some (place_buy_order s3 (i - 1) buyRes).1
          else some s3

/-- GridBot._on_order_update from src/bot/grid.py lines 306 to 315:
unknown order ids are ignored, known ones are stored back and routed to
the fill handler when reported FILLED. -/
noncomputable def on_order_update (s : BotState) (order : Order)
    (sellRes buyRes : Except String Order) : Option BotState :=
  if dictMem s.open_orders order.order_id = false then some s
  else
    let s1 := { s with open_orders := dictInsert s.open_orders order.order_id order }
    if order.status = OrderStatus.FILLED then handle_filled_order s1 order sellRes buyRes
    else some s1

/-- The loop of GridBot._place_initial_orders: for each level in order,
place a buy below the current price and a sell above it, leaving the
level at the current price empty.  The oracle gives the gateway outcome
for each level and requested side. -/
noncomputable def place_loop (oracle : ℕ → OrderSide → Except String Order) (cp : ℝ)
    (s : BotState) (idxs : List ℕ) : BotState :=
  match idxs with
  | [] => s
  | i :: rest =>
    let s' :=
      match s.grid_levels.get? i with
      | none => s
      | some lvl =>
        if lvl.price < cp then (place_buy_order s i (oracle i OrderSide.BUY)).1
        else if cp < lvl.price then (place_sell_order s i (oracle i OrderSide.SELL)).1
        else s
    place_loop oracle cp s' rest

/-- GridBot._place_initial_orders from src/bot/grid.py lines 195 to 209:
raises when no current price is available (None, or the falsy 0.0),
otherwise walks every level. -/
noncomputable def place_initial_orders (s : BotState) (oracle : ℕ → OrderSide → Except String Order) :
    Except String BotState :=
  match s.current_price with
  | none => Except.error "Current price not available"
  | some cp =>
    if cp = 0 then Except.error "Current price not available"
    else Except.ok (place_loop oracle cp s (List.range s.grid_levels.length))

/-- GridBot.start from src/bot/grid.py lines 132 to 177.  A running bot
returns immediately.  Otherwise the body runs under a try block: set the
running flag, clear last_error, rebuild the levels, take the midpoint
price in simulation mode or the gateway price otherwise (priceRes), and
place the initial orders.  Any exception clears the running flag and
records the message in last_error; mutations made before the raise
persist, as in the source. -/
noncomputable def start (s : BotState) (priceRes : Except String ℝ)
    (oracle : ℕ → OrderSide → Except String Order) : BotState :=
  if s.running then s
  else
    let s1 := { s with
      running := true,
      last_error := none,
      grid_levels := initialize_grid_levels s.config }
    let priceR : Except String ℝ :=
      if s.simulation_mode then
        Except.ok ((s.config.upper_price + s.config.lower_price) / 2)
      else priceRes
    match priceR with
    | Except.error e => { s1 with running := false, last_error := some e }
    | Except.ok p =>
      let s2 := { s1 with current_price := some p }
      match place_initial_orders s2 oracle with
      | Except.error e => { s2 with running := false, last_error := some e }
      | Except.ok s3 => s3

/-- The externally visible effects of GridBot.stop: whether a gateway
cancel-all was requested (never in simulation mode; the gateway client
absorbs cancellation failures itself) and whether a status snapshot was
published. -/
structure StopEffect where
  cancel_all_requested : Bool
  status_published : Bool

/-- GridBot.stop from src/bot/grid.py lines 179 to 193: an idle bot
returns immediately; a running one clears the running flag, requests a
gateway cancel-all outside simulation mode, clears the open-order
dictionary and publishes status.  Grid levels and trades are untouched. -/
def stop (s : BotState) : BotState × StopEffect :=
  if s.running = false then
    (s, { cancel_all_requested := false, status_published := false })
  else
    ({ s with running := false, open_orders := [] },
      { cancel_all_requested := !s.simulation_mode, status_published := true })

/-- GridBot.update_config from src/bot/grid.py lines 434 to 438: raise
while running (modelled as error, with the untouched state implicit in
the value-passing style), replace the configuration otherwise. -/
def update_config (s : BotState) (c : GridConfig) : Except String BotState :=
  if s.running then Except.error "Cannot update config while bot is running"
  else Except.ok { s with config := c }

theorem place_buy_order_running (s : BotState) (i : ℕ) (res : Except String Order) :
    (place_buy_order s i res).1.running = s.running := by
  unfold place_buy_order
  cases s.grid_levels.get? i with
  | none => rfl
  | some lvl =>
    by_cases h : lvl.has_buy_order = true
    · simp [h]
    · cases res <;> simp [h]

theorem place_sell_order_running (s : BotState) (i : ℕ) (res : Except String Order) :
    (place_sell_order s i res).1.running = s.running := by
  unfold place_sell_order
  cases s.grid_levels.get? i with
  | none => rfl
  | some lvl =>
    by_cases h : lvl.has_sell_order = true
    · simp [h]
    · cases res <;> simp [h]

theorem place_loop_running (oracle : ℕ → OrderSide → Except String Order) (cp : ℝ)
    (idxs : List ℕ) (s : BotState) :
    (place_loop oracle cp s idxs).running = s.running := by
  induction idxs generalizing s with
  | nil => rfl
  | cons i rest ih =>
    unfold place_loop
    cases hget : s.grid_levels.get? i with
    | none => simpa using ih s
    | some lvl =>
      by_cases h1 : lvl.price < cp
      · simp only [hget, if_pos h1]
        rw [ih, place_buy_order_running]
      · by_cases h2 : cp < lvl.price
        · simp only [hget, if_neg h1, if_pos h2]
          rw [ih, place_sell_order_running]
        · simpa [hget, h1, h2] using ih s

theorem place_initial_orders_running (s : BotState)
    (oracle : ℕ → OrderSide → Except String Order) (s3 : BotState) :
    place_initial_orders s oracle = Except.ok s3 → s3.running = s.running := by
  intro h
  unfold place_initial_orders at h
  cases hcp : s.current_price with
  | none => rw [hcp] at h; exact Except.noConfusion h
  | some cp =>
    rw [hcp] at h
    dsimp only at h
    by_cases h0 : cp = 0
    · rw [if_pos h0] at h
      exact Except.noConfusion h
    · rw [if_neg h0, Except.ok.injEq] at h
      rw [← h, place_loop_running]

theorem start_running_or_open_orders (s : BotState) (pr : Except String ℝ)
    (oracle : ℕ → OrderSide → Except String Order) :
    (start s pr oracle).running = true ∨
    (start s pr oracle).open_orders = s.open_orders := by
  unfold start
  by_cases hr : s.running
  · right
    simp [hr]
  · simp only [hr, if_false, Bool.false_eq_true]
    cases hp : (if s.simulation_mode then
        Except.ok ((s.config.upper_price + s.config.lower_price) / 2)
      else pr : Except String ℝ) with
    | error e => right; rfl
    | ok p =>
      simp only
      cases hpio : place_initial_orders { s with
          running := true, last_error := none,
          grid_levels := initialize_grid_levels s.config,
          current_price := some p } oracle with
      | error e => right; rfl
      | ok s3 =>
        left
        exact place_initial_orders_running _ oracle s3 hpio

/-- Claim C5: stopping a running engine clears the running flag and the
local open-order set, requests a gateway cancel-all outside simulation
mode, publishes status, and leaves the grid levels, the trade history
and the profit counters untouched; and for any bot that starts with an
empty open-order set (every freshly constructed bot), starting and then
immediately stopping ends Idle with zero open orders. -/
theorem stop_spec :
    (∀ s : BotState, s.running = true →
      (stop s).1.running = false ∧
      (stop s).1.open_orders = [] ∧
      (stop s).1.grid_levels = s.grid_levels ∧
      (stop s).1.trades = s.trades ∧
      (stop s).1.total_profit = s.total_profit ∧
      (stop s).2.cancel_all_requested = !s.simulation_mode ∧
      (stop s).2.status_published = true) ∧
    (∀ (s : BotState) (pr : Except String ℝ)
        (oracle : ℕ → OrderSide → Except String Order),
      s.open_orders = [] →
      (stop (start s pr oracle)).1.running = false ∧
      (stop (start s pr oracle)).1.open_orders = []) := by
  constructor
  · intro s h
    simp [stop, h]
  · intro s pr oracle hopen
    by_cases hr : (start s pr oracle).running = true
    · simp [stop, hr]
    · have hr' : (start s pr oracle).running = false := by
        cases h : (start s pr oracle).running
        · rfl
        · exact absurd h hr
      rcases start_running_or_open_orders s pr oracle with h1 | h2
      · exact absurd h1 hr
      · simp [stop, hr', h2, hopen]

def cfgEx : GridConfig := GridConfig.mk "BTCUSDT" 200 100 2 1 "arithmetic"

def runningBotEx : BotState := { config := cfgEx, running := true }

def idleBotEx : BotState := initState cfgEx true

/-- Witness for claim C5: a concrete running bot (fresh bot with the
running flag raised) stops to Idle with the open-order set cleared, and
a fresh idle bot started and stopped ends Idle with no open orders. -/
theorem stop_spec_witness :
    (stop runningBotEx).1.running = false ∧
    (stop (start idleBotEx (Except.error "offline")
      (fun _ _ => Except.error "rejected"))).1.open_orders = [] := by
  constructor
  · exact (stop_spec.1 runningBotEx rfl).1
  · exact (stop_spec.2 idleBotEx
      (Except.error "offline") (fun _ _ => Except.error "rejected") rfl).2

/-- Claim C6: starting an already running engine returns the state
entirely unchanged, and stopping an already idle engine returns the
state unchanged with no gateway cancellation and no status publication. -/
theorem start_stop_idempotent (s : BotState) :
    (s.running = true →
      ∀ (pr : Except String ℝ) (oracle : ℕ → OrderSide → Except String Order),
        start s pr oracle = s) ∧
    (s.running = false →
      stop s = (s, { cancel_all_requested := false, status_published := false })) := by
  constructor
  · intro h pr oracle
    simp [start, h]
  · intro h
    simp [stop, h]

/-- Witness for claim C6: a concrete running bot is unchanged by start
and a concrete idle bot is unchanged by stop. -/
theorem start_stop_idempotent_witness :
    start runningBotEx (Except.error "offline") (fun _ _ => Except.error "rejected") =
      runningBotEx ∧
    stop idleBotEx =
      (idleBotEx, { cancel_all_requested := false, status_published := false }) := by
  constructor
  · exact (start_stop_idempotent _).1 rfl (Except.error "offline")
      (fun _ _ => Except.error "rejected")
  · exact (start_stop_idempotent _).2 rfl

/-- Claim C7: when the gateway call for a single order placement raises,
during startup or during fill rotation, the placement helper returns
None with the whole engine state unchanged: the level keeps its flags
and order ids, the open-order set is untouched, and no exception
escapes (the helpers are total functions). -/
theorem placement_error_no_mutation (s : BotState) (i : ℕ) (msg : String) :
    place_buy_order s i (Except.error msg) = (s, none) ∧
    place_sell_order s i (Except.error msg) = (s, none) := by
  constructor
  · unfold place_buy_order
    cases s.grid_levels.get? i with
    | none => rfl
    | some lvl =>
      by_cases h : lvl.has_buy_order = true <;> simp [h]
  · unfold place_sell_order
    cases s.grid_levels.get? i with
    | none => rfl
    | some lvl =>
      by_cases h : lvl.has_sell_order = true <;> simp [h]

/-- Claim C8: update_config while running fails synchronously with the
source's state-error message and, in the value-passing embedding,
returns no successor state at all (nothing is mutated); while idle it
replaces exactly the configuration field. -/
theorem update_config_spec (s : BotState) (c : GridConfig) :
    (s.running = true →
      update_config s c = Except.error "Cannot update config while bot is running") ∧
    (s.running = false →
      update_config s c = Except.ok { s with config := c }) := by
  constructor
  · intro h
    simp [update_config, h]
  · intro h
    simp [update_config, h]

/-- Witness for claim C8: a concrete running bot rejects the update and
the same bot when idle accepts it. -/
theorem update_config_spec_witness :
    update_config runningBotEx (GridConfig.mk "ETHUSDT" 3000 2500 5 1 "arithmetic") =
      Except.error "Cannot update config while bot is running" ∧
    update_config idleBotEx (GridConfig.mk "ETHUSDT" 3000 2500 5 1 "arithmetic") =
      Except.ok { idleBotEx with
                  config := GridConfig.mk "ETHUSDT" 3000 2500 5 1 "arithmetic" } := by
  constructor
  · exact (update_config_spec _ _).1 rfl
  · exact (update_config_spec _ _).2 rfl

theorem dictMem_iff (d : List (String × Order)) (k : String) :
    dictMem d k = true ↔ ∃ p ∈ d, p.1 = k := by
  simp [dictMem, List.any_eq_true, beq_iff_eq]

theorem dictMem_false_iff (d : List (String × Order)) (k : String) :
    dictMem d k = false ↔ ∀ p ∈ d, p.1 ≠ k := by
  rw [← Bool.not_eq_true, dictMem_iff]
  push_neg
  rfl

theorem mem_dictErase (d : List (String × Order)) (k : String) (p : String × Order) :
    p ∈ dictErase d k ↔ p ∈ d ∧ p.1 ≠ k := by
  simp [dictErase, List.mem_filter]

theorem mem_dictInsert (d : List (String × Order)) (k : String) (v : Order)
    (p : String × Order) :
    p ∈ dictInsert d k v → p = (k, v) ∨ (p ∈ d ∧ p.1 ≠ k) := by
  intro hp
  unfold dictInsert at hp
  by_cases hm : dictMem d k
  · rw [if_pos hm] at hp
    obtain ⟨q, hq, hfq⟩ := List.mem_map.mp hp
    by_cases hqk : q.1 = k
    · left
      rw [← hfq, if_pos (beq_iff_eq.mpr hqk)]
    · right
      rw [← hfq, if_neg (by simpa using hqk)]
      exact ⟨hq, hqk⟩
  · rw [if_neg hm] at hp
    rcases List.mem_append.mp hp with h | h
    · right
      refine ⟨h, ?_⟩
      have := (dictMem_false_iff d k).mp (by simpa using hm)
      exact this _ h
    · left
      simpa using h

theorem self_mem_dictInsert (d : List (String × Order)) (k : String) (v : Order) :
    (k, v) ∈ dictInsert d k v := by
  unfold dictInsert
  by_cases hm : dictMem d k
  · rw [if_pos hm]
    obtain ⟨p, hp, hpk⟩ := (dictMem_iff d k).mp hm
    exact List.mem_map.mpr ⟨p, hp, by rw [if_pos (beq_iff_eq.mpr hpk)]⟩
  · rw [if_neg hm]
    simp

theorem dictMem_dictInsert_self (d : List (String × Order)) (k : String) (v : Order) :
    dictMem (dictInsert d k v) k = true :=
  (dictMem_iff _ k).mpr ⟨(k, v), self_mem_dictInsert d k v, rfl⟩

theorem dictMem_dictErase_self (d : List (String × Order)) (k : String) :
    dictMem (dictErase d k) k = false :=
  (dictMem_false_iff _ k).mpr fun p hp => ((mem_dictErase d k p).mp hp).2

theorem dictMem_dictInsert_dictErase (d : List (String × Order)) (k k' : String)
    (v : Order) (h : k' ≠ k) :
    dictMem (dictInsert (dictErase d k) k' v) k = false := by
  rw [dictMem_false_iff]
  intro p hp
  rcases mem_dictInsert _ _ _ _ hp with h1 | ⟨h1, _⟩
  · rw [h1]
    exact h
  · exact ((mem_dictErase d k p).mp h1).2

theorem place_buy_order_skip (s : BotState) (i : ℕ) (res : Except String Order)
    (lvl : GridLevel) (hget : s.grid_levels.get? i = some lvl)
    (hflag : lvl.has_buy_order = true) :
    place_buy_order s i res = (s, none) := by
  unfold place_buy_order
  rw [hget]
  simp [hflag]

theorem place_sell_order_skip (s : BotState) (i : ℕ) (res : Except String Order)
    (lvl : GridLevel) (hget : s.grid_levels.get? i = some lvl)
    (hflag : lvl.has_sell_order = true) :
    place_sell_order s i res = (s, none) := by
  unfold place_sell_order
  rw [hget]
  simp [hflag]

theorem place_buy_order_ok (s : BotState) (i : ℕ) (o' : Order) (lvl : GridLevel)
    (hget : s.grid_levels.get? i = some lvl) (hflag : lvl.has_buy_order = false) :
    place_buy_order s i (Except.ok o') =
      ({ s with
          grid_levels := s.grid_levels.set i
            { lvl with has_buy_order := true, buy_order_id := some o'.order_id },
          open_orders := dictInsert s.open_orders o'.order_id o',
          sim_orders :=
            if s.simulation_mode then dictInsert s.sim_orders o'.order_id o'
            else s.sim_orders },
        some o') := by
  unfold place_buy_order
  rw [hget]
  simp [hflag]

theorem place_sell_order_ok (s : BotState) (i : ℕ) (o' : Order) (lvl : GridLevel)
    (hget : s.grid_levels.get? i = some lvl) (hflag : lvl.has_sell_order = false) :
    place_sell_order s i (Except.ok o') =
      ({ s with
          grid_levels := s.grid_levels.set i
            { lvl with has_sell_order := true, sell_order_id := some o'.order_id },
          open_orders := dictInsert s.open_orders o'.order_id o',
          sim_orders :=
            if s.simulation_mode then dictInsert s.sim_orders o'.order_id o'
            else s.sim_orders },
        some o') := by
  unfold place_sell_order
  rw [hget]
  simp [hflag]

theorem ite_bot_proj {α : Type _} (f : BotState → α) (c : Prop) [Decidable c]
    (x y : BotState) (h1 : f x = f y) : f (if c then x else y) = f y := by
  split
  · exact h1
  · rfl

/-- Claim C2: when the engine handles an order reported FILLED whose id
is an open-order key and whose grid level index is in range, the order
leaves the open-order set (the counter-order ids being fresh), an
immutable Trade with the order's data is appended; on a BUY fill the
level's buy flag and id are cleared, profits are untouched, and when a
level exists one index above without a sell order and the gateway
accepts, a SELL counter-order is recorded there and enters the open set;
on a SELL fill the level's sell flag and id are cleared, the spacing
between the first two generated levels times the filled order's quantity
is added to both the cumulative and the daily profit counters, and when
a level exists one index below without a buy order and the gateway
accepts, a BUY counter-order is recorded there and enters the open set. -/
theorem handle_filled_order_spec
    (s : BotState) (o : Order) (i : ℕ) (lvl : GridLevel)
    (sr br : Except String Order)
    (hmem : dictMem s.open_orders o.order_id = true)
    (hlvl : o.grid_level = some i)
    (hget : s.grid_levels.get? i = some lvl) :
    ∃ s', handle_filled_order s o sr br = some s' ∧
      s'.trades = s.trades ++
        [{ trade_id := "trade_" ++ toString s.trades.length, order_id := o.order_id,
           trading_pair := o.trading_pair, side := o.side, price := o.price,
           quantity := o.quantity }] ∧
      ((∀ p, sr = Except.ok p → p.order_id ≠ o.order_id) →
        (∀ p, br = Except.ok p → p.order_id ≠ o.order_id) →
        dictMem s'.open_orders o.order_id = false) ∧
      (o.side = OrderSide.BUY →
        (∃ lvl', s'.grid_levels.get? i = some lvl' ∧ lvl'.has_buy_order = false ∧
          lvl'.buy_order_id = none ∧ lvl'.has_sell_order = lvl.has_sell_order ∧
          lvl'.sell_order_id = lvl.sell_order_id) ∧
        s'.total_profit = s.total_profit ∧ s'.daily_profit = s.daily_profit ∧
        (∀ lvl2, s.grid_levels.get? (i + 1) = some lvl2 → lvl2.has_sell_order = false →
          ∀ p, sr = Except.ok p →
            (∃ lvl2', s'.grid_levels.get? (i + 1) = some lvl2' ∧
              lvl2'.has_sell_order = true ∧ lvl2'.sell_order_id = some p.order_id) ∧
            dictMem s'.open_orders p.order_id = true)) ∧
      (o.side = OrderSide.SELL →
        (∃ lvl', s'.grid_levels.get? i = some lvl' ∧ lvl'.has_sell_order = false ∧
          lvl'.sell_order_id = none ∧ lvl'.has_buy_order = lvl.has_buy_order ∧
          lvl'.buy_order_id = lvl.buy_order_id) ∧
        (∀ a b rest, s.config.get_grid_levels = a :: b :: rest →
          s'.total_profit = s.total_profit + (b - a) * o.quantity ∧
          s'.daily_profit = s.daily_profit + (b - a) * o.quantity) ∧
        (1 ≤ i →
          ∀ lvl2, s.grid_levels.get? (i - 1) = some lvl2 → lvl2.has_buy_order = false →
          ∀ p, br = Except.ok p →
            (∃ lvl2', s'.grid_levels.get? (i - 1) = some lvl2' ∧
              lvl2'.has_buy_order = true ∧ lvl2'.buy_order_id = some p.order_id) ∧
            dictMem s'.open_orders p.order_id = true)) := by
  obtain ⟨hi, -⟩ := List.get?_eq_some.mp hget
  unfold handle_filled_order
  rw [if_neg (show ¬ (dictMem s.open_orders o.order_id = false) by simp [hmem])]
  dsimp only
  rw [hlvl]
  dsimp only
  rw [hget]
  cases hos : o.side with
  | BUY =>
    dsimp only
    rw [List.length_set]
    by_cases hb : i + 1 < s.grid_levels.length
    · rw [if_pos hb]
      have hne : i ≠ i + 1 := by omega
      cases hg2 : s.grid_levels.get? (i + 1) with
      | none =>
        exact absurd (List.get?_eq_none.mp hg2) (by omega)
      | some lvl2 =>
        have hg2' : ((s.grid_levels.set i
            { lvl with has_buy_order := false, buy_order_id := none }).get? (i + 1)) =
            some lvl2 := by
          rw [List.get?_set_ne _ _ hne]
          exact hg2
        by_cases hf2 : lvl2.has_sell_order = true
        · rw [place_sell_order_skip _ _ _ _ hg2' hf2]
          refine ⟨_, rfl, rfl, ?_, ?_, ?_⟩
          · intro _ _
            exact dictMem_dictErase_self _ _
          · refine fun _ => ⟨⟨{ lvl with has_buy_order := false, buy_order_id := none }, ?_, rfl, rfl, rfl, rfl⟩, rfl, rfl, ?_⟩
            · rw [List.get?_set_eq_of_lt _ hi]
            · intro lvl2a hg2a hf2a q hq
              have heq : lvl2 = lvl2a := Option.some_injective _ hg2a
              subst heq
              simp [hf2a] at hf2
          · intro hsell
            exact absurd hsell (by decide)
        · have hf2' : lvl2.has_sell_order = false := by
            cases h : lvl2.has_sell_order
            · rfl
            · exact absurd h hf2
          cases sr with
          | error e =>
            rw [(placement_error_no_mutation _ _ e).2]
            refine ⟨_, rfl, rfl, ?_, ?_, ?_⟩
            · intro _ _
              exact dictMem_dictErase_self _ _
            · refine fun _ => ⟨⟨{ lvl with has_buy_order := false, buy_order_id := none }, ?_, rfl, rfl, rfl, rfl⟩, rfl, rfl, ?_⟩
              · rw [List.get?_set_eq_of_lt _ hi]
              · intro lvl2a hg2a hf2a q hq
                exact Except.noConfusion hq
            · intro hsell
              exact absurd hsell (by decide)
          | ok p =>
            rw [place_sell_order_ok _ _ p lvl2 hg2' hf2']
            refine ⟨_, rfl, rfl, ?_, ?_, ?_⟩
            · intro hfresh _
              exact dictMem_dictInsert_dictErase _ _ _ _ (hfresh p rfl)
            · refine fun _ => ⟨⟨{ lvl with has_buy_order := false, buy_order_id := none }, ?_, rfl, rfl, rfl, rfl⟩, rfl, rfl, ?_⟩
              · rw [List.get?_set_ne _ _ (by omega), List.get?_set_eq_of_lt _ hi]
              · intro lvl2a hg2a hf2a q hq
                have heq : lvl2 = lvl2a := Option.some_injective _ hg2a
                subst heq
                cases hq
                refine ⟨⟨{ lvl2 with has_sell_order := true, sell_order_id := some p.order_id }, ?_, rfl, rfl⟩, dictMem_dictInsert_self _ _ _⟩
                rw [List.get?_set_eq_of_lt]
                rw [List.length_set]
                exact hb
            · intro hsell
              exact absurd hsell (by decide)
    · rw [if_neg hb]
      refine ⟨_, rfl, rfl, ?_, ?_, ?_⟩
      · intro _ _
        exact dictMem_dictErase_self _ _
      · refine fun _ => ⟨⟨{ lvl with has_buy_order := false, buy_order_id := none }, ?_, rfl, rfl, rfl, rfl⟩, rfl, rfl, ?_⟩
        · rw [List.get?_set_eq_of_lt _ hi]
        · intro lvl2 hg2 _ _ _
          obtain ⟨h2, -⟩ := List.get?_eq_some.mp hg2
          exact absurd h2 hb
      · intro hsell
        exact absurd hsell (by decide)
  | SELL =>
    dsimp only
    by_cases hlen : 1 < (s.config.get_grid_levels).length
    · rw [if_pos hlen]
      by_cases h1 : 1 ≤ i
      · rw [if_pos h1]
        have hne : i ≠ i - 1 := by omega
        cases hg2 : s.grid_levels.get? (i - 1) with
        | none =>
          have := List.get?_eq_none.mp hg2
          omega
        | some lvl2 =>
          have hg2' : ((s.grid_levels.set i
              { lvl with has_sell_order := false, sell_order_id := none }).get? (i - 1)) =
              some lvl2 := by
            rw [List.get?_set_ne _ _ hne]
            exact hg2
          by_cases hf2 : lvl2.has_buy_order = true
          · rw [place_buy_order_skip _ _ _ _ hg2' hf2]
            refine ⟨_, rfl, rfl, ?_, ?_, ?_⟩
            · intro _ _
              exact dictMem_dictErase_self _ _
            · intro hbuy
              exact absurd hbuy (by decide)
            · refine fun _ => ⟨⟨{ lvl with has_sell_order := false, sell_order_id := none }, ?_, rfl, rfl, rfl, rfl⟩, ?_, ?_⟩
              · rw [List.get?_set_eq_of_lt _ hi]
              · intro a b rest hab
                rw [hab]
                simp
              · intro _ lvl2a hg2a hf2a q hq
                have heq : lvl2 = lvl2a := Option.some_injective _ hg2a
                subst heq
                simp [hf2a] at hf2
          · have hf2' : lvl2.has_buy_order = false := by
              cases h : lvl2.has_buy_order
              · rfl
              · exact absurd h hf2
            cases br with
            | error e =>
              rw [(placement_error_no_mutation _ _ e).1]
              refine ⟨_, rfl, rfl, ?_, ?_, ?_⟩
              · intro _ _
                exact dictMem_dictErase_self _ _
              · intro hbuy
                exact absurd hbuy (by decide)
              · refine fun _ => ⟨⟨{ lvl with has_sell_order := false, sell_order_id := none }, ?_, rfl, rfl, rfl, rfl⟩, ?_, ?_⟩
                · rw [List.get?_set_eq_of_lt _ hi]
                · intro a b rest hab
                  rw [hab]
                  simp
                · intro _ lvl2a hg2a hf2a q hq
                  exact Except.noConfusion hq
            | ok p =>
              rw [place_buy_order_ok _ _ p lvl2 hg2' hf2']
              refine ⟨_, rfl, rfl, ?_, ?_, ?_⟩
              · intro _ hfresh
                exact dictMem_dictInsert_dictErase _ _ _ _ (hfresh p rfl)
              · intro hbuy
                exact absurd hbuy (by decide)
              · refine fun _ => ⟨⟨{ lvl with has_sell_order := false, sell_order_id := none }, ?_, rfl, rfl, rfl, rfl⟩, ?_, ?_⟩
                · rw [List.get?_set_ne _ _ (by omega), List.get?_set_eq_of_lt _ hi]
                · intro a b rest hab
                  rw [hab]
                  simp
                · intro _ lvl2a hg2a hf2a q hq
                  have heq : lvl2 = lvl2a := Option.some_injective _ hg2a
                  subst heq
                  cases hq
                  refine ⟨⟨{ lvl2 with has_buy_order := true, buy_order_id := some p.order_id }, ?_, rfl, rfl⟩, dictMem_dictInsert_self _ _ _⟩
                  rw [List.get?_set_eq_of_lt]
                  rw [List.length_set]
                  omega
      · rw [if_neg h1]
        refine ⟨_, rfl, rfl, ?_, ?_, ?_⟩
        · intro _ _
          exact dictMem_dictErase_self _ _
        · intro hbuy
          exact absurd hbuy (by decide)
        · refine fun _ => ⟨⟨{ lvl with has_sell_order := false, sell_order_id := none }, ?_, rfl, rfl, rfl, rfl⟩, ?_, ?_⟩
          · rw [List.get?_set_eq_of_lt _ hi]
          · intro a b rest hab
            rw [hab]
            simp
          · intro hc
            exact absurd hc h1
    · rw [if_neg hlen]
      by_cases h1 : 1 ≤ i
      · rw [if_pos h1]
        have hne : i ≠ i - 1 := by omega
        cases hg2 : s.grid_levels.get? (i - 1) with
        | none =>
          have := List.get?_eq_none.mp hg2
          omega
        | some lvl2 =>
          have hg2' : ((s.grid_levels.set i
              { lvl with has_sell_order := false, sell_order_id := none }).get? (i - 1)) =
              some lvl2 := by
            rw [List.get?_set_ne _ _ hne]
            exact hg2
          by_cases hf2 : lvl2.has_buy_order = true
          · rw [place_buy_order_skip _ _ _ _ hg2' hf2]
            refine ⟨_, rfl, rfl, ?_, ?_, ?_⟩
            · intro _ _
              exact dictMem_dictErase_self _ _
            · intro hbuy
              exact absurd hbuy (by decide)
            · refine fun _ => ⟨⟨{ lvl with has_sell_order := false, sell_order_id := none }, ?_, rfl, rfl, rfl, rfl⟩, ?_, ?_⟩
              · rw [List.get?_set_eq_of_lt _ hi]
              · intro a b rest hab
                rw [hab] at hlen
                simp at hlen
              · intro _ lvl2a hg2a hf2a q hq
                have heq : lvl2 = lvl2a := Option.some_injective _ hg2a
                subst heq
                simp [hf2a] at hf2
          · have hf2' : lvl2.has_buy_order = false := by
              cases h : lvl2.has_buy_order
              · rfl
              · exact absurd h hf2
            cases br with
            | error e =>
              rw [(placement_error_no_mutation _ _ e).1]
              refine ⟨_, rfl, rfl, ?_, ?_, ?_⟩
              · intro _ _
                exact dictMem_dictErase_self _ _
              · intro hbuy
                exact absurd hbuy (by decide)
              · refine fun _ => ⟨⟨{ lvl with has_sell_order := false, sell_order_id := none }, ?_, rfl, rfl, rfl, rfl⟩, ?_, ?_⟩
                · rw [List.get?_set_eq_of_lt _ hi]
                · intro a b rest hab
                  rw [hab] at hlen
                  simp at hlen
                · intro _ lvl2a hg2a hf2a q hq
                  exact Except.noConfusion hq
            | ok p =>
              rw [place_buy_order_ok _ _ p lvl2 hg2' hf2']
              refine ⟨_, rfl, rfl, ?_, ?_, ?_⟩
              · intro _ hfresh
                exact dictMem_dictInsert_dictErase _ _ _ _ (hfresh p rfl)
              · intro hbuy
                exact absurd hbuy (by decide)
              · refine fun _ => ⟨⟨{ lvl with has_sell_order := false, sell_order_id := none }, ?_, rfl, rfl, rfl, rfl⟩, ?_, ?_⟩
                · rw [List.get?_set_ne _ _ (by omega), List.get?_set_eq_of_lt _ hi]
                · intro a b rest hab
                  rw [hab] at hlen
                  simp at hlen
                · intro _ lvl2a hg2a hf2a q hq
                  have heq : lvl2 = lvl2a := Option.some_injective _ hg2a
                  subst heq
                  cases hq
                  refine ⟨⟨{ lvl2 with has_buy_order := true, buy_order_id := some p.order_id }, ?_, rfl, rfl⟩, dictMem_dictInsert_self _ _ _⟩
                  rw [List.get?_set_eq_of_lt]
                  rw [List.length_set]
                  omega
      · rw [if_neg h1]
        refine ⟨_, rfl, rfl, ?_, ?_, ?_⟩
        · intro _ _
          exact dictMem_dictErase_self _ _
        · intro hbuy
          exact absurd hbuy (by decide)
        · refine fun _ => ⟨⟨{ lvl with has_sell_order := false, sell_order_id := none }, ?_, rfl, rfl, rfl, rfl⟩, ?_, ?_⟩
          · rw [List.get?_set_eq_of_lt _ hi]
          · intro a b rest hab
            rw [hab] at hlen
            simp at hlen
          · intro hc
            exact absurd hc h1

/-- The number of open orders of a given side resting at grid level i. -/
def ordersAt (d : List (String × Order)) (side : OrderSide) (i : ℕ) : ℕ :=
  (d.filter fun p => p.2.side == side && p.2.grid_level == some i).length

/-- The per-level, per-side bookkeeping invariant of claim C4, relative
to the open-order dictionary d: a cleared order-id field comes with a
cleared flag and no open order of that side at that level, a set
order-id field comes with a raised flag and every open order of that
side at that level carrying exactly that id as its key. -/
def SideInv (d : List (String × Order)) (side : OrderSide) (i : ℕ)
    (flag : Bool) (oid : Option String) : Prop :=
  match oid with
  | none => flag = false ∧ ∀ p ∈ d, ¬(p.2.side = side ∧ p.2.grid_level = some i)
  | some k => flag = true ∧ ∀ p ∈ d, p.2.side = side ∧ p.2.grid_level = some i → p.1 = k

/-- The engine invariant: open-order keys are distinct (Python dict), an
idle engine holds no open orders (stop clears them, start from idle
inherits the empty set), and every grid level satisfies the per-side
bookkeeping invariant for both sides. -/
def Inv (s : BotState) : Prop :=
  (s.open_orders.map Prod.fst).Nodup ∧
  (s.running = false → s.open_orders = []) ∧
  ∀ i lvl, s.grid_levels.get? i = some lvl →
    SideInv s.open_orders OrderSide.BUY i lvl.has_buy_order lvl.buy_order_id ∧
    SideInv s.open_orders OrderSide.SELL i lvl.has_sell_order lvl.sell_order_id

/-- A gateway placement outcome is well formed for a side and level when
the returned order carries that side and that grid level, as both
BinanceClient.place_limit_order and GridBot._simulate_place_order
construct it from the request. -/
def resOkAt (side : OrderSide) (i : ℕ) (res : Except String Order) : Prop :=
  ∀ o', res = Except.ok o' → o'.side = side ∧ o'.grid_level = some i

/-- Well-formedness of a whole placement oracle, per level and side. -/
def OracleOk (oracle : ℕ → OrderSide → Except String Order) : Prop :=
  ∀ i side, resOkAt side i (oracle i side)

theorem dictFind?_mem (d : List (String × Order)) (k : String) (st : Order)
    (h : dictFind? d k = some st) : (k, st) ∈ d := by
  unfold dictFind? at h
  cases hf : d.find? (fun p => p.1 == k) with
  | none => rw [hf] at h; exact Option.noConfusion h
  | some p =>
    rw [hf] at h
    have hpk : p.1 = k := by simpa using List.find?_some hf
    have hpd : p ∈ d := List.mem_of_find?_eq_some hf
    have hst : p.2 = st := by simpa using h
    have hpe : p = (k, st) := by
      cases p
      simp_all
    rw [← hpe]
    exact hpd

theorem find?_replace_first {d : List (String × Order)} {k : String} (v : Order)
    (hm : ∃ p ∈ d, p.1 = k) :
    (d.map fun p => if p.1 == k then (k, v) else p).find? (fun p => p.1 == k) =
      some (k, v) := by
  induction d with
  | nil =>
    obtain ⟨p, hp, -⟩ := hm
    cases hp
  | cons q t ih =>
    by_cases hqk : q.1 = k
    · rw [List.map_cons, if_pos (by simpa using hqk)]
      exact List.find?_cons_of_pos _ (by simp)
    · rw [List.map_cons, if_neg (by simpa using hqk),
        List.find?_cons_of_neg _ (by simpa using hqk)]
      apply ih
      obtain ⟨p, hp, hpk⟩ := hm
      rcases List.mem_cons.mp hp with h | h
      · exact absurd (by rw [← h]; exact hpk) hqk
      · exact ⟨p, h, hpk⟩

theorem dictFind?_dictInsert_self (d : List (String × Order)) (k : String) (v : Order) :
    dictFind? (dictInsert d k v) k = some v := by
  unfold dictFind? dictInsert
  by_cases hm : dictMem d k
  · rw [if_pos hm, find?_replace_first v ((dictMem_iff d k).mp hm)]
    simp
  · rw [if_neg hm, List.find?_append]
    have hnone : d.find? (fun p => p.1 == k) = none :=
      List.find?_eq_none.mpr (by
        intro p hp
        simpa using (dictMem_false_iff d k).mp (by simpa using hm) p hp)
    rw [hnone]
    simp [List.find?]

theorem keys_dictInsert_nodup (d : List (String × Order)) (k : String) (v : Order)
    (h : (d.map Prod.fst).Nodup) : ((dictInsert d k v).map Prod.fst).Nodup := by
  unfold dictInsert
  by_cases hm : dictMem d k
  · rw [if_pos hm]
    have he : (d.map fun p => if p.1 == k then (k, v) else p).map Prod.fst =
        d.map Prod.fst := by
      rw [List.map_map]
      apply List.map_congr_left
      intro p _
      by_cases hpk : p.1 = k
      · simp [hpk]
      · simp [hpk]
    rw [he]
    exact h
  · rw [if_neg hm, List.map_append]
    have hall := (dictMem_false_iff d k).mp (by simpa using hm)
    simp only [List.map_cons, List.map_nil]
    rw [List.nodup_append]
    refine ⟨h, List.nodup_singleton k, ?_⟩
    intro a ha hb
    simp only [List.mem_singleton] at hb
    obtain ⟨p, hp, hpa⟩ := List.mem_map.mp ha
    exact hall p hp (by rw [hpa, hb])

theorem keys_dictErase_nodup (d : List (String × Order)) (k : String)
    (h : (d.map Prod.fst).Nodup) : ((dictErase d k).map Prod.fst).Nodup :=
  ((List.filter_sublist d).map Prod.fst).nodup h

theorem ordersAt_le_one (d : List (String × Order)) (side : OrderSide) (i : ℕ)
    (k : String) (hnd : (d.map Prod.fst).Nodup)
    (hall : ∀ p ∈ d, p.2.side = side ∧ p.2.grid_level = some i → p.1 = k) :
    ordersAt d side i ≤ 1 := by
  unfold ordersAt
  induction d with
  | nil => simp
  | cons q t ih =>
    simp only [List.map_cons, List.nodup_cons] at hnd
    by_cases hq : (q.2.side == side && q.2.grid_level == some i) = true
    · rw [List.filter_cons, if_pos hq]
      have hqk : q.1 = k := hall q (by simp) (by simpa using hq)
      have hnil : t.filter (fun p => p.2.side == side && p.2.grid_level == some i) = [] := by
        rw [List.filter_eq_nil]
        intro p hp hpm
        have hpk : p.1 = k := hall p (by simp [hp]) (by simpa using hpm)
        exact hnd.1 (by rw [hqk, ← hpk]; exact List.mem_map.mpr ⟨p, hp, rfl⟩)
      rw [hnil]
      simp
    · rw [List.filter_cons, if_neg hq]
      exact ih hnd.2 fun p hp => hall p (by simp [hp])

theorem ordersAt_eq_zero (d : List (String × Order)) (side : OrderSide) (i : ℕ)
    (hnone : ∀ p ∈ d, ¬(p.2.side = side ∧ p.2.grid_level = some i)) :
    ordersAt d side i = 0 := by
  unfold ordersAt
  rw [List.filter_eq_nil.mpr]
  · rfl
  · intro p hp
    simpa using hnone p hp

theorem SideInv_mono (d' d : List (String × Order)) (side : OrderSide) (i : ℕ)
    (flag : Bool) (oid : Option String) (hsub : ∀ p, p ∈ d' → p ∈ d) :
    SideInv d side i flag oid → SideInv d' side i flag oid := by
  unfold SideInv
  cases oid with
  | none => exact fun h => ⟨h.1, fun p hp => h.2 p (hsub p hp)⟩
  | some k => exact fun h => ⟨h.1, fun p hp => h.2 p (hsub p hp)⟩

theorem SideInv_flag_iff (d : List (String × Order)) (side : OrderSide) (i : ℕ)
    (flag : Bool) (oid : Option String) (h : SideInv d side i flag oid) :
    flag = oid.isSome := by
  unfold SideInv at h
  cases oid with
  | none => rw [h.1]; rfl
  | some k => rw [h.1]; rfl

theorem SideInv_no_match (d : List (String × Order)) (side : OrderSide) (i : ℕ)
    (oid : Option String) (h : SideInv d side i false oid) :
    ∀ p ∈ d, ¬(p.2.side = side ∧ p.2.grid_level = some i) := by
  unfold SideInv at h
  cases oid with
  | none => exact h.2
  | some k => exact absurd h.1 (by simp)

theorem SideInv_insert_of_no_match (d : List (String × Order)) (k : String) (o' : Order)
    (side : OrderSide) (i : ℕ) (flag : Bool) (oid : Option String)
    (hSI : SideInv d side i flag oid)
    (hno : ¬(o'.side = side ∧ o'.grid_level = some i)) :
    SideInv (dictInsert d k o') side i flag oid := by
  unfold SideInv at *
  cases oid with
  | none =>
    refine ⟨hSI.1, fun p hp hm => ?_⟩
    rcases mem_dictInsert _ _ _ _ hp with h | ⟨h, -⟩
    · subst h
      exact hno hm
    · exact hSI.2 p h hm
  | some k0 =>
    refine ⟨hSI.1, fun p hp hm => ?_⟩
    rcases mem_dictInsert _ _ _ _ hp with h | ⟨h, -⟩
    · subst h
      exact absurd hm hno
    · exact hSI.2 p h hm

theorem SideInv_insert_self (d : List (String × Order)) (o' : Order)
    (side : OrderSide) (i : ℕ)
    (hno : ∀ p ∈ d, ¬(p.2.side = side ∧ p.2.grid_level = some i)) :
    SideInv (dictInsert d o'.order_id o') side i true (some o'.order_id) := by
  refine ⟨rfl, fun p hp hm => ?_⟩
  rcases mem_dictInsert _ _ _ _ hp with h | ⟨h, -⟩
  · rw [h]
  · exact absurd hm (hno p h)

theorem SideInv_insert_replace (d : List (String × Order)) (k : String) (o st : Order)
    (hfind : dictFind? d k = some st)
    (hside : st.side = o.side) (hlev : st.grid_level = o.grid_level)
    (side : OrderSide) (i : ℕ) (flag : Bool) (oid : Option String)
    (hSI : SideInv d side i flag oid) :
    SideInv (dictInsert d k o) side i flag oid := by
  have hmem : (k, st) ∈ d := dictFind?_mem d k st hfind
  unfold SideInv at *
  cases oid with
  | none =>
    refine ⟨hSI.1, fun p hp hm => ?_⟩
    rcases mem_dictInsert _ _ _ _ hp with h | ⟨h, -⟩
    · subst h
      exact hSI.2 (k, st) hmem ⟨by rw [hside]; exact hm.1, by rw [hlev]; exact hm.2⟩
    · exact hSI.2 p h hm
  | some k0 =>
    refine ⟨hSI.1, fun p hp hm => ?_⟩
    rcases mem_dictInsert _ _ _ _ hp with h | ⟨h, -⟩
    · subst h
      exact hSI.2 (k, st) hmem ⟨by rw [hside]; exact hm.1, by rw [hlev]; exact hm.2⟩
    · exact hSI.2 p h hm

theorem SideInv_erase (d : List (String × Order)) (k : String) (side : OrderSide)
    (i : ℕ) (flag : Bool) (oid : Option String) (hSI : SideInv d side i flag oid) :
    SideInv (dictErase d k) side i flag oid :=
  SideInv_mono _ d side i flag oid (fun p hp => ((mem_dictErase d k p).mp hp).1) hSI

theorem SideInv_erase_cleared (d : List (String × Order)) (o : Order)
    (side : OrderSide) (i : ℕ) (flag : Bool) (oid : Option String)
    (hmem : (o.order_id, o) ∈ d)
    (hside : o.side = side) (hlev : o.grid_level = some i)
    (hSI : SideInv d side i flag oid) :
    SideInv (dictErase d o.order_id) side i false none := by
  refine ⟨rfl, fun p hp hm => ?_⟩
  obtain ⟨hpd, hpk⟩ := (mem_dictErase _ _ _).mp hp
  unfold SideInv at hSI
  cases oid with
  | none => exact hSI.2 (o.order_id, o) hmem ⟨hside, hlev⟩
  | some k0 =>
    have h1 : o.order_id = k0 := hSI.2 (o.order_id, o) hmem ⟨hside, hlev⟩
    have h2 : p.1 = k0 := hSI.2 p hpd hm
    exact hpk (h2.trans h1.symm)

theorem place_buy_order_inv {s : BotState} {i : ℕ} {res : Except String Order}
    (hInv : Inv s) (hrun : s.running = true) (hres : resOkAt OrderSide.BUY i res) :
    Inv (place_buy_order s i res).1 := by
  unfold place_buy_order
  cases hget : s.grid_levels.get? i with
  | none => exact hInv
  | some lvl =>
    dsimp only
    by_cases hflag : lvl.has_buy_order = true
    · simp only [hflag, if_true]
      exact hInv
    · have hflag' : lvl.has_buy_order = false := by
        cases h : lvl.has_buy_order
        · rfl
        · exact absurd h hflag
      rw [if_neg hflag]
      cases res with
      | error e => exact hInv
      | ok o' =>
        obtain ⟨hside, hlev⟩ := hres o' rfl
        obtain ⟨hi, -⟩ := List.get?_eq_some.mp hget
        dsimp only
        refine ⟨keys_dictInsert_nodup _ _ _ hInv.1, ?_, ?_⟩
        · intro hf
          rw [hrun] at hf
          exact Bool.noConfusion hf
        · intro j lvlj hj
          by_cases hij : i = j
          · subst hij
            rw [List.get?_set_eq_of_lt _ hi] at hj
            have hlj := Option.some_injective _ hj
            subst hlj
            obtain ⟨hB, hS⟩ := hInv.2.2 i lvl hget
            rw [hflag'] at hB
            constructor
            · exact SideInv_insert_self _ o' OrderSide.BUY i (SideInv_no_match _ _ _ _ hB)
            · exact SideInv_insert_of_no_match _ _ _ _ _ _ _ hS
                (fun hm => by rw [hside] at hm; exact OrderSide.noConfusion hm.1)
          · rw [List.get?_set_ne _ _ hij] at hj
            obtain ⟨hB, hS⟩ := hInv.2.2 j lvlj hj
            have hno : ¬(o'.side = OrderSide.BUY ∧ o'.grid_level = some j) ∨ True := Or.inr trivial
            constructor
            · exact SideInv_insert_of_no_match _ _ _ _ _ _ _ hB
                (fun hm => hij (by rw [hlev] at hm; exact Option.some_injective _ hm.2))
            · exact SideInv_insert_of_no_match _ _ _ _ _ _ _ hS
                (fun hm => hij (by rw [hlev] at hm; exact Option.some_injective _ hm.2))

theorem place_sell_order_inv {s : BotState} {i : ℕ} {res : Except String Order}
    (hInv : Inv s) (hrun : s.running = true) (hres : resOkAt OrderSide.SELL i res) :
    Inv (place_sell_order s i res).1 := by
  unfold place_sell_order
  cases hget : s.grid_levels.get? i with
  | none => exact hInv
  | some lvl =>
    dsimp only
    by_cases hflag : lvl.has_sell_order = true
    · simp only [hflag, if_true]
      exact hInv
    · have hflag' : lvl.has_sell_order = false := by
        cases h : lvl.has_sell_order
        · rfl
        · exact absurd h hflag
      rw [if_neg hflag]
      cases res with
      | error e => exact hInv
      | ok o' =>
        obtain ⟨hside, hlev⟩ := hres o' rfl
        obtain ⟨hi, -⟩ := List.get?_eq_some.mp hget
        dsimp only
        refine ⟨keys_dictInsert_nodup _ _ _ hInv.1, ?_, ?_⟩
        · intro hf
          rw [hrun] at hf
          exact Bool.noConfusion hf
        · intro j lvlj hj
          by_cases hij : i = j
          · subst hij
            rw [List.get?_set_eq_of_lt _ hi] at hj
            have hlj := Option.some_injective _ hj
            subst hlj
            obtain ⟨hB, hS⟩ := hInv.2.2 i lvl hget
            rw [hflag'] at hS
            constructor
            · exact SideInv_insert_of_no_match _ _ _ _ _ _ _ hB
                (fun hm => by rw [hside] at hm; exact OrderSide.noConfusion hm.1)
            · exact SideInv_insert_self _ o' OrderSide.SELL i (SideInv_no_match _ _ _ _ hS)
          · rw [List.get?_set_ne _ _ hij] at hj
            obtain ⟨hB, hS⟩ := hInv.2.2 j lvlj hj
            constructor
            · exact SideInv_insert_of_no_match _ _ _ _ _ _ _ hB
                (fun hm => hij (by rw [hlev] at hm; exact Option.some_injective _ hm.2))
            · exact SideInv_insert_of_no_match _ _ _ _ _ _ _ hS
                (fun hm => hij (by rw [hlev] at hm; exact Option.some_injective _ hm.2))

theorem dictMem_of_dictFind? (d : List (String × Order)) (k : String) (st : Order)
    (h : dictFind? d k = some st) : dictMem d k = true :=
  (dictMem_iff d k).mpr ⟨(k, st), dictFind?_mem d k st h, rfl⟩

theorem handle_filled_order_inv {s : BotState} {o : Order}
    {sr br : Except String Order} {s' : BotState}
    (hInv : Inv s) (hrun : s.running = true)
    (hfind : dictFind? s.open_orders o.order_id = some o)
    (hres : ∀ i, o.grid_level = some i →
      resOkAt OrderSide.SELL (i + 1) sr ∧ resOkAt OrderSide.BUY (i - 1) br)
    (heq : handle_filled_order s o sr br = some s') : Inv s' := by
  have hmem : dictMem s.open_orders o.order_id = true :=
    dictMem_of_dictFind? _ _ _ hfind
  have hstored : (o.order_id, o) ∈ s.open_orders := dictFind?_mem _ _ _ hfind
  unfold handle_filled_order at heq
  rw [if_neg (show ¬ (dictMem s.open_orders o.order_id = false) by simp [hmem])] at heq
  dsimp only at heq
  cases hgl : o.grid_level with
  | none =>
    rw [hgl] at heq
    dsimp only at heq
    have hs' := Option.some_injective _ heq
    subst hs'
    refine ⟨keys_dictErase_nodup _ _ hInv.1, ?_, ?_⟩
    · intro hf
      rw [hrun] at hf
      exact Bool.noConfusion hf
    · intro j lvlj hj
      obtain ⟨hB, hS⟩ := hInv.2.2 j lvlj hj
      exact ⟨SideInv_erase _ _ _ _ _ _ hB, SideInv_erase _ _ _ _ _ _ hS⟩
  | some i =>
    rw [hgl] at heq
    dsimp only at heq
    cases hgi : s.grid_levels.get? i with
    | none =>
      rw [hgi] at heq
      exact Option.noConfusion heq
    | some lvl =>
      rw [hgi] at heq
      dsimp only at heq
      obtain ⟨hi, -⟩ := List.get?_eq_some.mp hgi
      obtain ⟨hresS, hresB⟩ := hres i hgl
      cases hside : o.side with
      | BUY =>
        rw [hside] at heq
        dsimp only at heq
        have hInv2 : Inv { s with
            open_orders := dictErase s.open_orders o.order_id,
            trades := s.trades ++
              [{ trade_id := "trade_" ++ toString s.trades.length,
                 order_id := o.order_id, trading_pair := o.trading_pair,
                 side := o.side, price := o.price, quantity := o.quantity }],
            grid_levels := s.grid_levels.set i
              { lvl with has_buy_order := false, buy_order_id := none } } := by
          refine ⟨keys_dictErase_nodup _ _ hInv.1, ?_, ?_⟩
          · intro hf
            rw [hrun] at hf
            exact Bool.noConfusion hf
          · intro j lvlj hj
            dsimp only at hj
            by_cases hij : i = j
            · subst hij
              rw [List.get?_set_eq_of_lt _ hi] at hj
              have hlj := Option.some_injective _ hj
              subst hlj
              obtain ⟨hB, hS⟩ := hInv.2.2 i lvl hgi
              exact ⟨SideInv_erase_cleared _ o _ i _ _ hstored hside hgl hB,
                SideInv_erase _ _ _ _ _ _ hS⟩
            · rw [List.get?_set_ne _ _ hij] at hj
              obtain ⟨hB, hS⟩ := hInv.2.2 j lvlj hj
              exact ⟨SideInv_erase _ _ _ _ _ _ hB, SideInv_erase _ _ _ _ _ _ hS⟩
        rw [List.length_set] at heq
        by_cases hb : i + 1 < s.grid_levels.length
        · rw [if_pos hb] at heq
          have hs' := Option.some_injective _ heq
          subst hs'
          exact place_sell_order_inv hInv2 hrun hresS
        · rw [if_neg hb] at heq
          have hs' := Option.some_injective _ heq
          subst hs'
          exact hInv2
      | SELL =>
        rw [hside] at heq
        dsimp only at heq
        have hInv2 : Inv { s with
            open_orders := dictErase s.open_orders o.order_id,
            trades := s.trades ++
              [{ trade_id := "trade_" ++ toString s.trades.length,
                 order_id := o.order_id, trading_pair := o.trading_pair,
                 side := o.side, price := o.price, quantity := o.quantity }],
            grid_levels := s.grid_levels.set i
              { lvl with has_sell_order := false, sell_order_id := none } } := by
          refine ⟨keys_dictErase_nodup _ _ hInv.1, ?_, ?_⟩
          · intro hf
            rw [hrun] at hf
            exact Bool.noConfusion hf
          · intro j lvlj hj
            dsimp only at hj
            by_cases hij : i = j
            · subst hij
              rw [List.get?_set_eq_of_lt _ hi] at hj
              have hlj := Option.some_injective _ hj
              subst hlj
              obtain ⟨hB, hS⟩ := hInv.2.2 i lvl hgi
              exact ⟨SideInv_erase _ _ _ _ _ _ hB,
                SideInv_erase_cleared _ o _ i _ _ hstored hside hgl hS⟩
            · rw [List.get?_set_ne _ _ hij] at hj
              obtain ⟨hB, hS⟩ := hInv.2.2 j lvlj hj
              exact ⟨SideInv_erase _ _ _ _ _ _ hB, SideInv_erase _ _ _ _ _ _ hS⟩
        by_cases hlen : 1 < (s.config.get_grid_levels).length
        · rw [if_pos hlen] at heq
          by_cases h1 : 1 ≤ i
          · rw [if_pos h1] at heq
            have hs' := Option.some_injective _ heq
            subst hs'
            exact place_buy_order_inv hInv2 hrun hresB
          · rw [if_neg h1] at heq
            have hs' := Option.some_injective _ heq
            subst hs'
            exact hInv2
        · rw [if_neg hlen] at heq
          by_cases h1 : 1 ≤ i
          · rw [if_pos h1] at heq
            have hs' := Option.some_injective _ heq
            subst hs'
            exact place_buy_order_inv hInv2 hrun hresB
          · rw [if_neg h1] at heq
            have hs' := Option.some_injective _ heq
            subst hs'
            exact hInv2

theorem on_order_update_inv {s s' : BotState} {o : Order} {sr br : Except String Order}
    (hInv : Inv s)
    (hhonest : ∀ st, dictFind? s.open_orders o.order_id = some st →
      st.side = o.side ∧ st.grid_level = o.grid_level)
    (hres : ∀ i, o.grid_level = some i →
      resOkAt OrderSide.SELL (i + 1) sr ∧ resOkAt OrderSide.BUY (i - 1) br)
    (heq : on_order_update s o sr br = some s') : Inv s' := by
  unfold on_order_update at heq
  by_cases hmem : dictMem s.open_orders o.order_id = true
  · rw [if_neg (show ¬ (dictMem s.open_orders o.order_id = false) by simp [hmem])] at heq
    dsimp only at heq
    have hrun : s.running = true := by
      cases hr : s.running
      · have hempty := hInv.2.1 hr
        rw [hempty] at hmem
        exact absurd hmem (by simp [dictMem])
      · rfl
    obtain ⟨p0, hp0, hp0k⟩ := (dictMem_iff _ _).mp hmem
    have hfind : ∃ st, dictFind? s.open_orders o.order_id = some st := by
      unfold dictFind?
      cases hf : s.open_orders.find? (fun p => p.1 == o.order_id) with
      | none =>
        have := List.find?_eq_none.mp hf p0 hp0
        simp [hp0k] at this
      | some p => exact ⟨p.2, rfl⟩
    obtain ⟨st, hfind⟩ := hfind
    obtain ⟨hstside, hstlev⟩ := hhonest st hfind
    have hInv1 : Inv { s with
        open_orders := dictInsert s.open_orders o.order_id o } := by
      refine ⟨keys_dictInsert_nodup _ _ _ hInv.1, ?_, ?_⟩
      · intro hf
        rw [hrun] at hf
        exact Bool.noConfusion hf
      · intro j lvlj hj
        obtain ⟨hB, hS⟩ := hInv.2.2 j lvlj hj
        exact ⟨SideInv_insert_replace _ _ o st hfind hstside hstlev _ _ _ _ hB,
          SideInv_insert_replace _ _ o st hfind hstside hstlev _ _ _ _ hS⟩
    by_cases hst : o.status = OrderStatus.FILLED
    · rw [if_pos hst] at heq
      exact handle_filled_order_inv hInv1 hrun
        (dictFind?_dictInsert_self s.open_orders o.order_id o) hres heq
    · rw [if_neg hst] at heq
      have hs' := Option.some_injective _ heq
      subst hs'
      exact hInv1
  · rw [if_pos (by simpa using hmem)] at heq
    have hs' := Option.some_injective _ heq
    subst hs'
    exact hInv

theorem initialize_grid_levels_fresh (c : GridConfig) :
    ∀ j lvlj, (initialize_grid_levels c).get? j = some lvlj →
      lvlj.has_buy_order = false ∧ lvlj.has_sell_order = false ∧
      lvlj.buy_order_id = none ∧ lvlj.sell_order_id = none := by
  intro j lvlj hj
  unfold initialize_grid_levels at hj
  rw [List.get?_map] at hj
  cases he : (c.get_grid_levels.enum).get? j with
  | none =>
    rw [he] at hj
    exact Option.noConfusion hj
  | some q =>
    rw [he] at hj
    have hq := Option.some_injective _ (by simpa using hj)
    rw [← hq]
    exact ⟨rfl, rfl, rfl, rfl⟩

theorem Inv_initState (c : GridConfig) (sim : Bool) : Inv (initState c sim) := by
  refine ⟨List.nodup_nil, fun _ => rfl, ?_⟩
  intro j lvlj hj
  exact absurd hj (by simp [initState])

theorem stop_inv {s : BotState} (hInv : Inv s) : Inv (stop s).1 := by
  unfold stop
  by_cases hr : s.running = false
  · rw [if_pos hr]
    exact hInv
  · rw [if_neg hr]
    refine ⟨List.nodup_nil, fun _ => rfl, ?_⟩
    intro j lvlj hj
    obtain ⟨hB, hS⟩ := hInv.2.2 j lvlj hj
    exact ⟨SideInv_mono [] _ _ _ _ _ (fun p hp => absurd hp (List.not_mem_nil p)) hB,
      SideInv_mono [] _ _ _ _ _ (fun p hp => absurd hp (List.not_mem_nil p)) hS⟩

theorem place_loop_inv (oracle : ℕ → OrderSide → Except String Order) (cp : ℝ)
    (idxs : List ℕ) {s : BotState} (hOk : OracleOk oracle)
    (hInv : Inv s) (hrun : s.running = true) :
    Inv (place_loop oracle cp s idxs) := by
  induction idxs generalizing s with
  | nil => exact hInv
  | cons i rest ih =>
    unfold place_loop
    cases hget : s.grid_levels.get? i with
    | none => exact ih hInv hrun
    | some lvl =>
      dsimp only
      by_cases h1 : lvl.price < cp
      · rw [if_pos h1]
        exact ih (place_buy_order_inv hInv hrun (hOk i OrderSide.BUY))
          (by rw [place_buy_order_running]; exact hrun)
      · rw [if_neg h1]
        by_cases h2 : cp < lvl.price
        · rw [if_pos h2]
          exact ih (place_sell_order_inv hInv hrun (hOk i OrderSide.SELL))
            (by rw [place_sell_order_running]; exact hrun)
        · rw [if_neg h2]
          exact ih hInv hrun

theorem start_inv {s : BotState} (pr : Except String ℝ)
    {oracle : ℕ → OrderSide → Except String Order}
    (hInv : Inv s) (hOk : OracleOk oracle) : Inv (start s pr oracle) := by
  unfold start
  by_cases hr : s.running = true
  · rw [if_pos hr]
    exact hInv
  · rw [if_neg hr]
    have hrf : s.running = false := by
      cases h : s.running
      · rfl
      · exact absurd h hr
    have hopen : s.open_orders = [] := hInv.2.1 hrf
    dsimp only
    have hbase : ∀ (run : Bool) (err : Option String) (cp : Option ℝ),
        Inv { s with
              running := run,
              last_error := err,
              grid_levels := initialize_grid_levels s.config,
              current_price := cp } := by
      intro run err cp
      refine ⟨hInv.1, fun _ => hopen, ?_⟩
      intro j lvlj hj
      dsimp only at hj ⊢
      obtain ⟨f1, f2, f3, f4⟩ := initialize_grid_levels_fresh s.config j lvlj hj
      rw [hopen]
      constructor
      · rw [f1, f3]
        exact ⟨rfl, fun p hp => absurd hp (List.not_mem_nil p)⟩
      · rw [f2, f4]
        exact ⟨rfl, fun p hp => absurd hp (List.not_mem_nil p)⟩
    cases hp : (if s.simulation_mode then
        Except.ok ((s.config.upper_price + s.config.lower_price) / 2)
      else pr : Except String ℝ) with
    | error e => exact hbase false (some e) s.current_price
    | ok p =>
      dsimp only
      cases hq : place_initial_orders { s with
          running := true, last_error := none,
          grid_levels := initialize_grid_levels s.config,
          current_price := some p } oracle with
      | error e => exact hbase false (some e) (some p)
      | ok s3 =>
        unfold place_initial_orders at hq
        dsimp only at hq
        by_cases hz : p = 0
        · rw [if_pos hz] at hq
          exact Except.noConfusion hq
        · rw [if_neg hz] at hq
          rw [Except.ok.injEq] at hq
          rw [← hq]
          exact place_loop_inv oracle p _ hOk (hbase true none (some p)) rfl

/-- The engine states reachable along the source's entry points:
construction, start (with a well formed placement oracle, as both
gateway implementations construct the returned order from the requested
side and level), stop, a price update caching the price, an order update
from a gateway that reports the stored order's own side and level (live
exchange reports and the simulator both do), and an idle configuration
update. -/
inductive Reachable : BotState → Prop where
  | init (c : GridConfig) (sim : Bool) : Reachable (initState c sim)
  | start_step {s : BotState} (pr : Except String ℝ)
      {oracle : ℕ → OrderSide → Except String Order} :
      Reachable s → OracleOk oracle → Reachable (start s pr oracle)
  | stop_step {s : BotState} : Reachable s → Reachable (stop s).1
  | price_step {s : BotState} (p : ℝ) : Reachable s →
      Reachable { s with current_price := some p }
  | order_update_step {s s' : BotState} {o : Order} {sr br : Except String Order} :
      Reachable s →
      (∀ st, dictFind? s.open_orders o.order_id = some st →
        st.side = o.side ∧ st.grid_level = o.grid_level) →
      (∀ i, o.grid_level = some i →
        resOkAt OrderSide.SELL (i + 1) sr ∧ resOkAt OrderSide.BUY (i - 1) br) →
      on_order_update s o sr br = some s' → Reachable s'
  | config_step {s s' : BotState} {c : GridConfig} :
      Reachable s → update_config s c = Except.ok s' → Reachable s'

theorem reachable_inv {s : BotState} (h : Reachable s) : Inv s := by
  induction h with
  | init c sim => exact Inv_initState c sim
  | start_step pr hre hOk ih => exact start_inv pr ih hOk
  | stop_step hre ih => exact stop_inv ih
  | price_step p hre ih => exact ⟨ih.1, ih.2.1, ih.2.2⟩
  | order_update_step hre hhonest hres heq ih =>
    exact on_order_update_inv ih hhonest hres heq
  | config_step hre heq ih =>
    rename_i sprev s' c
    unfold update_config at heq
    by_cases hr : sprev.running = true
    · rw [if_pos hr] at heq
      exact Except.noConfusion heq
    · rw [if_neg hr] at heq
      rw [Except.ok.injEq] at heq
      rw [← heq]
      exact ⟨ih.1, ih.2.1, ih.2.2⟩

/-- Claim C4: in every reachable engine state each grid level holds at
most one open buy order and at most one open sell order, a level's buy
or sell order-id field is non-null exactly when the corresponding flag
is true, and a cleared flag means no open order of that side at the
level; moreover the placement helpers never place an order on a level
that already holds an order on that side (they return None with the
state unchanged), which is what makes a duplicated fill notification's
counter-order placement idempotent. -/
theorem grid_invariant (s : BotState) (h : Reachable s) :
    (∀ i lvl, s.grid_levels.get? i = some lvl →
      lvl.has_buy_order = lvl.buy_order_id.isSome ∧
      lvl.has_sell_order = lvl.sell_order_id.isSome ∧
      ordersAt s.open_orders OrderSide.BUY i ≤ 1 ∧
      ordersAt s.open_orders OrderSide.SELL i ≤ 1 ∧
      (lvl.has_buy_order = false → ordersAt s.open_orders OrderSide.BUY i = 0) ∧
      (lvl.has_sell_order = false → ordersAt s.open_orders OrderSide.SELL i = 0)) ∧
    (∀ (t : BotState) (j : ℕ) (res : Except String Order) (lvlj : GridLevel),
      t.grid_levels.get? j = some lvlj →
      (lvlj.has_buy_order = true → place_buy_order t j res = (t, none)) ∧
      (lvlj.has_sell_order = true → place_sell_order t j res = (t, none))) := by
  have hInv := reachable_inv h
  constructor
  · intro i lvl hget
    obtain ⟨hB, hS⟩ := hInv.2.2 i lvl hget
    have hnd := hInv.1
    refine ⟨SideInv_flag_iff _ _ _ _ _ hB, SideInv_flag_iff _ _ _ _ _ hS,
      ?_, ?_, ?_, ?_⟩
    · cases hoid : lvl.buy_order_id with
      | none =>
        rw [hoid] at hB
        have h0 := ordersAt_eq_zero s.open_orders OrderSide.BUY i hB.2
        omega
      | some k =>
        rw [hoid] at hB
        exact ordersAt_le_one _ _ _ k hnd hB.2
    · cases hoid : lvl.sell_order_id with
      | none =>
        rw [hoid] at hS
        have h0 := ordersAt_eq_zero s.open_orders OrderSide.SELL i hS.2
        omega
      | some k =>
        rw [hoid] at hS
        exact ordersAt_le_one _ _ _ k hnd hS.2
    · intro hflag
      rw [hflag] at hB
      exact ordersAt_eq_zero _ _ _ (SideInv_no_match _ _ _ _ hB)
    · intro hflag
      rw [hflag] at hS
      exact ordersAt_eq_zero _ _ _ (SideInv_no_match _ _ _ _ hS)
  · intro t j res lvlj hgetj
    exact ⟨fun hf => place_buy_order_skip t j res lvlj hgetj hf,
      fun hf => place_sell_order_skip t j res lvlj hgetj hf⟩

def busyLvlEx : GridLevel :=
  { level := 0, price := 100, has_buy_order := true, buy_order_id := some "b9" }

def busyBotEx : BotState :=
  { config := cfgEx, running := true, grid_levels := [busyLvlEx] }

/-- Witness for claim C4: applied at the freshly constructed (reachable)
bot, the theorem's placement conjunct shows that a level already holding
a buy order is left untouched by a further buy placement. -/
theorem grid_invariant_witness :
    place_buy_order busyBotEx 0 (Except.error "duplicate") = (busyBotEx, none) :=
  ((grid_invariant (initState cfgEx true) (Reachable.init cfgEx true)).2
    busyBotEx 0 (Except.error "duplicate") busyLvlEx rfl).1 rfl

def sellOrderEx : Order :=
  { order_id := "s0", trading_pair := "BTCUSDT", side := OrderSide.SELL,
    price := 150, quantity := 1, filled_quantity := 1,
    status := OrderStatus.FILLED, grid_level := some 1 }

def buyCounterEx : Order :=
  { order_id := "b1", trading_pair := "BTCUSDT", side := OrderSide.BUY,
    price := 100, quantity := 1, grid_level := some 0 }

def fillBotEx : BotState :=
  { config := cfgEx,
    running := true,
    current_price := some 150,
    grid_levels := [
      { level := 0, price := 100 },
      { level := 1, price := 150, has_sell_order := true, sell_order_id := some "s0" },
      { level := 2, price := 200 }],
    open_orders := [("s0", sellOrderEx)] }

/-- Witness for claim C2: a concrete bot with a filled SELL at level 1
routes through the fill handler, which succeeds and appends the
corresponding trade record. -/
theorem handle_filled_order_spec_witness :
    ∃ s', handle_filled_order fillBotEx sellOrderEx (Except.error "unused")
        (Except.ok buyCounterEx) = some s' ∧
      s'.trades = fillBotEx.trades ++
        [{ trade_id := "trade_" ++ toString fillBotEx.trades.length,
           order_id := sellOrderEx.order_id,
           trading_pair := sellOrderEx.trading_pair, side := sellOrderEx.side,
           price := sellOrderEx.price, quantity := sellOrderEx.quantity }] := by
  obtain ⟨s', h1, h2, -⟩ :=
    handle_filled_order_spec fillBotEx sellOrderEx 1
      { level := 1, price := 150, has_sell_order := true, sell_order_id := some "s0" }
      (Except.error "unused") (Except.ok buyCounterEx) rfl rfl rfl
  exact ⟨s', h1, h2⟩

end CryptoBot
